import Mathlib

set_option autoImplicit false

/-!
Shallow embedding of the svg_viewer application core: the viewport transform
state machine (src/viewport.rs), the render pipeline entry points
(src/renderer.rs), the export pixel post-processing (src/export.rs) and the
file navigator (src/file_navigator.rs).  Real-valued `f32` state is embedded
as exact rationals; the trigonometric rotation matrix of the external
`tiny_skia` transform is embedded over the reals.
-/

namespace SvgViewer

/-- Truncation toward zero, as Rust float-to-integer casts and `%` use. -/
def qtrunc (q : ℚ) : ℤ := if 0 ≤ q then ⌊q⌋ else ⌈q⌉

/-- Rust `%` on floats: remainder carrying the sign of the dividend,
`x - m * trunc(x / m)`. -/
def rustRem (x m : ℚ) : ℚ := x - m * (qtrunc (x / m) : ℚ)

/-- Rust `f32::clamp(lo, hi)` (for `lo ≤ hi`): `max lo (min x hi)`. -/
def rustClamp (x lo hi : ℚ) : ℚ := max lo (min x hi)

/-- Rust `f32::round`: round half away from zero. -/
def rustRound (q : ℚ) : ℤ := if 0 ≤ q then ⌊q + 1/2⌋ else ⌈q - 1/2⌉

/-- Rust `as u8` saturating cast applied to an (already rounded) float value. -/
def asU8 (x : ℚ) : ℕ := (max (qtrunc x) 0).toNat.min 255

/-- Rust `as u32` saturating cast applied to an (already rounded) float value. -/
def asU32 (x : ℚ) : ℕ := (max (qtrunc x) 0).toNat.min 4294967295

/-- Fit-mode of the viewport (src/viewport.rs, `FitMode`). -/
inductive FitMode where
  | Fit : FitMode
  | ActualSize : FitMode
  | Custom : FitMode
deriving DecidableEq, Repr

/-- Viewport state (src/viewport.rs, `Viewport`); `pan` is the egui `Vec2`
embedded as a pair of rationals. -/
structure Viewport where
  zoom : ℚ
  pan : ℚ × ℚ
  rotation_deg : ℚ
  mirror_h : Bool
  mirror_v : Bool
  fit_mode : FitMode
deriving DecidableEq, Repr

/-- The `Default` impl for `Viewport`. -/
def Viewport.default : Viewport :=
  { zoom := 1, pan := (0, 0), rotation_deg := 0,
    mirror_h := false, mirror_v := false, fit_mode := FitMode.Fit }

namespace Viewport

/-- `Viewport::reset`. -/
def reset (_vp : Viewport) : Viewport := Viewport.default

/-- `Viewport::fit_to_area`. -/
def fit_to_area (vp : Viewport) (svg_width svg_height area_width area_height : ℚ) :
    Viewport :=
  if svg_width ≤ 0 ∨ svg_height ≤ 0 ∨ area_width ≤ 0 ∨ area_height ≤ 0 then vp
  else
    let effective_w :=
      if |rustRem vp.rotation_deg 180| > 45 then svg_height else svg_width
    let effective_h :=
      if |rustRem vp.rotation_deg 180| > 45 then svg_width else svg_height
    let scale_x := area_width / effective_w
    let scale_y := area_height / effective_h
    { vp with zoom := min scale_x scale_y, pan := (0, 0), fit_mode := FitMode.Fit }

/-- `Viewport::set_actual_size`. -/
def set_actual_size (vp : Viewport) (pixels_per_point : ℚ) : Viewport :=
  { vp with zoom := 1 / pixels_per_point, pan := (0, 0),
            fit_mode := FitMode.ActualSize }

/-- `Viewport::zoom_by`. -/
def zoom_by (vp : Viewport) (factor : ℚ) (cursor_pos : ℚ × ℚ) : Viewport :=
  let old_zoom := vp.zoom
  let new_zoom := rustClamp (vp.zoom * factor) (1/100) 100
  let srat := new_zoom / old_zoom
  { vp with zoom := new_zoom,
            pan := cursor_pos - srat • (cursor_pos - vp.pan),
            fit_mode := FitMode.Custom }

/-- `Viewport::pan_by`. -/
def pan_by (vp : Viewport) (delta : ℚ × ℚ) : Viewport :=
  { vp with pan := vp.pan + delta,
            fit_mode := if vp.fit_mode = FitMode.Fit then FitMode.Custom
                        else vp.fit_mode }

/-- `Viewport::rotate_cw`. -/
def rotate_cw (vp : Viewport) : Viewport :=
  { vp with rotation_deg := rustRem (vp.rotation_deg + 90) 360 }

/-- `Viewport::rotate_ccw`. -/
def rotate_ccw (vp : Viewport) : Viewport :=
  { vp with rotation_deg := rustRem (vp.rotation_deg - 90 + 360) 360 }

/-- `Viewport::toggle_mirror_h`. -/
def toggle_mirror_h (vp : Viewport) : Viewport :=
  { vp with mirror_h := !vp.mirror_h }

/-- `Viewport::toggle_mirror_v`. -/
def toggle_mirror_v (vp : Viewport) : Viewport :=
  { vp with mirror_v := !vp.mirror_v }

end Viewport

/-- A 2-D affine transform in the layout of the external `tiny_skia::Transform`:
point mapping is `x' = sx*x + kx*y + tx`, `y' = ky*x + sy*y + ty`. -/
structure Transform where
  sx : ℝ
  kx : ℝ
  ky : ℝ
  sy : ℝ
  tx : ℝ
  ty : ℝ

namespace Transform

/-- `tiny_skia::Transform::identity`. -/
def identity : Transform := ⟨1, 0, 0, 1, 0, 0⟩

/-- The matrix product of the external library: `concat a b` applies `b` to a
point first and `a` second. -/
def concat (a b : Transform) : Transform :=
  ⟨a.sx * b.sx + a.kx * b.ky,
   a.sx * b.kx + a.kx * b.sy,
   a.ky * b.sx + a.sy * b.ky,
   a.ky * b.kx + a.sy * b.sy,
   a.sx * b.tx + a.kx * b.ty + a.tx,
   a.ky * b.tx + a.sy * b.ty + a.ty⟩

/-- `tiny_skia::Transform::from_translate`. -/
def from_translate (tx ty : ℝ) : Transform := ⟨1, 0, 0, 1, tx, ty⟩

/-- `tiny_skia::Transform::from_scale`. -/
def from_scale (sx sy : ℝ) : Transform := ⟨sx, 0, 0, sy, 0, 0⟩

/-- `tiny_skia::Transform::from_rotate` (angle in degrees). -/
noncomputable def from_rotate (deg : ℝ) : Transform :=
  let v := deg * (Real.pi / 180)
  ⟨Real.cos v, -Real.sin v, Real.sin v, Real.cos v, 0, 0⟩

/-- `tiny_skia::Transform::post_translate`. -/
def post_translate (t : Transform) (tx ty : ℝ) : Transform :=
  concat (from_translate tx ty) t

/-- `tiny_skia::Transform::pre_rotate`. -/
noncomputable def pre_rotate (t : Transform) (deg : ℝ) : Transform :=
  concat t (from_rotate deg)

/-- `tiny_skia::Transform::pre_scale`. -/
def pre_scale (t : Transform) (sx sy : ℝ) : Transform :=
  concat t (from_scale sx sy)

/-- `tiny_skia::Transform::pre_translate`. -/
def pre_translate (t : Transform) (tx ty : ℝ) : Transform :=
  concat t (from_translate tx ty)

end Transform

/-- `Viewport::build_transform` (src/viewport.rs). -/
noncomputable def Viewport.build_transform (vp : Viewport)
    (svg_width svg_height render_width render_height : ℝ) : Transform :=
  let cx := render_width / 2
  let cy := render_height / 2
  let scale_x := render_width / svg_width
  let scale_y := render_height / svg_height
  let scale := min scale_x scale_y
  let ts := Transform.identity
  let ts := ts.post_translate cx cy
  let ts := if vp.rotation_deg ≠ 0 then ts.pre_rotate ((vp.rotation_deg : ℚ) : ℝ)
            else ts
  let ts := if vp.mirror_h then ts.pre_scale (-1) 1 else ts
  let ts := if vp.mirror_v then ts.pre_scale 1 (-1) else ts
  let ts := ts.pre_translate (-svg_width / 2 * scale) (-svg_height / 2 * scale)
  ts.pre_scale scale scale

/-- Error kinds of src/error.rs, `SvgError`. -/
inductive SvgError where
  | ioError : String → SvgError
  | parse : String → SvgError
  | render : String → SvgError
  | exportError : String → SvgError
  | clipboard : String → SvgError
  | noFile : SvgError
deriving DecidableEq, Repr

/-- The parts of src/svg_document.rs `SvgDocument` the render pipeline reads:
the parsed tree handle (abstract) and the intrinsic size. -/
structure SvgDocument (Tree : Type) where
  tree : Tree
  width : ℚ
  height : ℚ

/-- `MAX_RENDER_DIM` (src/renderer.rs). -/
def MAX_RENDER_DIM : ℕ := 4096

/-- Model of the external `tiny_skia::Pixmap::new`: allocation succeeds exactly
for positive dimensions (the failure the renderer guards against); the pixmap
is represented by its dimensions. -/
def pixmapNew (w h : ℕ) : Option (ℕ × ℕ) :=
  if w = 0 ∨ h = 0 then none else some (w, h)

/-- The data the renderer hands to the external rasterizer `resvg::render`:
the parsed tree, the pixmap dimensions, and the affine transform.  The pixel
output of a render call is a deterministic function of this record. -/
structure RenderCall (Tree : Type) where
  tree : Tree
  width : ℕ
  height : ℕ
  transform : Transform

/-- `Renderer::render_to_pixmap` (src/renderer.rs). -/
noncomputable def renderToPixmap {Tree : Type} (doc : SvgDocument Tree)
    (vp : Viewport) (area_width area_height pixels_per_point : ℚ) :
    Except SvgError (RenderCall Tree) :=
  let svg_w := doc.width
  let svg_h := doc.height
  if svg_w ≤ 0 ∨ svg_h ≤ 0 then
    Except.error (SvgError.render "SVG has zero dimensions")
  else
    let effective_svg_w :=
      if |rustRem vp.rotation_deg 180| > 45 then svg_h else svg_w
    let effective_svg_h :=
      if |rustRem vp.rotation_deg 180| > 45 then svg_w else svg_h
    let displayed_w := effective_svg_w * vp.zoom
    let displayed_h := effective_svg_h * vp.zoom
    let capped_w := min displayed_w area_width
    let capped_h := min displayed_h area_height
    let render_w := asU32 ((rustRound (capped_w * pixels_per_point) : ℤ) : ℚ)
    let render_h := asU32 ((rustRound (capped_h * pixels_per_point) : ℤ) : ℚ)
    let render_w := min (max render_w 1) MAX_RENDER_DIM
    let render_h := min (max render_h 1) MAX_RENDER_DIM
    match pixmapNew render_w render_h with
    | none => Except.error (SvgError.render "Failed to create pixmap")
    | some _ =>
        Except.ok ⟨doc.tree, render_w, render_h,
          vp.build_transform ((svg_w : ℚ) : ℝ) ((svg_h : ℚ) : ℝ)
            (render_w : ℝ) (render_h : ℝ)⟩

/-- `Renderer::render_for_export` (src/renderer.rs). -/
noncomputable def renderForExport {Tree : Type} (doc : SvgDocument Tree)
    (width height : ℕ) (vp : Viewport) : Except SvgError (RenderCall Tree) :=
  let width := min (max width 1) MAX_RENDER_DIM
  let height := min (max height 1) MAX_RENDER_DIM
  match pixmapNew width height with
  | none => Except.error (SvgError.render "Failed to create pixmap")
  | some _ =>
      Except.ok ⟨doc.tree, width, height,
        vp.build_transform ((doc.width : ℚ) : ℝ) ((doc.height : ℚ) : ℝ)
          (width : ℝ) (height : ℝ)⟩

/-- `un_premultiply_alpha` (src/export.rs): maps premultiplied RGBA bytes,
four at a time (`chunks_exact(4)` drops a trailing incomplete chunk). -/
def unPremultiplyAlpha : List ℕ → List ℕ
  | r :: g :: b :: a :: rest =>
    let af : ℚ := (a : ℚ) / 255
    (if 0 < af then
      [asU8 (min ((rustRound ((r : ℚ) / af) : ℤ) : ℚ) 255),
       asU8 (min ((rustRound ((g : ℚ) / af) : ℤ) : ℚ) 255),
       asU8 (min ((rustRound ((b : ℚ) / af) : ℤ) : ℚ) 255),
       a]
     else [0, 0, 0, 0]) ++ unPremultiplyAlpha rest
  | _ => []

/-- `composite_over_background` (src/export.rs): composites premultiplied RGBA
bytes over a solid RGB background, producing RGB, four input bytes at a time. -/
def compositeOverBackground : List ℕ → ℕ × ℕ × ℕ → List ℕ
  | r :: g :: b :: a :: rest, bg =>
    let af : ℚ := (a : ℚ) / 255
    asU8 (min ((rustRound ((r : ℚ) + (bg.1 : ℚ) * (1 - af)) : ℤ) : ℚ) 255) ::
    asU8 (min ((rustRound ((g : ℚ) + (bg.2.1 : ℚ) * (1 - af)) : ℤ) : ℚ) 255) ::
    asU8 (min ((rustRound ((b : ℚ) + (bg.2.2 : ℚ) * (1 - af)) : ℤ) : ℚ) 255) ::
    compositeOverBackground rest bg
  | _, _ => []

/-- File navigator state (src/file_navigator.rs); paths embedded as strings. -/
structure FileNavigator where
  files : List String
  current_index : ℕ
deriving DecidableEq, Repr

namespace FileNavigator

/-- `FileNavigator::next`: the returned path together with the updated state. -/
def next (nav : FileNavigator) : Option String × FileNavigator :=
  if nav.files.isEmpty then (none, nav)
  else
    let i := (nav.current_index + 1) % nav.files.length
    (nav.files.get? i, ⟨nav.files, i⟩)

/-- `FileNavigator::prev`: the returned path together with the updated state. -/
def prev (nav : FileNavigator) : Option String × FileNavigator :=
  if nav.files.isEmpty then (none, nav)
  else
    let i := if nav.current_index = 0 then nav.files.length - 1
             else nav.current_index - 1
    (nav.files.get? i, ⟨nav.files, i⟩)

end FileNavigator

/-! ## Helper lemmas -/

theorem qtrunc_intCast (n : ℤ) : qtrunc (n : ℚ) = n := by
  unfold qtrunc
  split <;> simp

theorem floor_half : ⌊(1/2 : ℚ)⌋ = 0 := by
  rw [Int.floor_eq_zero_iff]
  constructor <;> norm_num

theorem ceil_neg_half : ⌈(-(1/2) : ℚ)⌉ = 0 := by
  rw [Int.ceil_eq_iff]
  norm_num

theorem rustRound_intCast (n : ℤ) : rustRound (n : ℚ) = n := by
  unfold rustRound
  have hf : ⌊(n : ℚ) + 1/2⌋ = n := by
    rw [add_comm, Int.floor_add_int, floor_half, zero_add]
  have hc : ⌈(n : ℚ) - 1/2⌉ = n := by
    rw [sub_eq_add_neg, add_comm, Int.ceil_add_int, ceil_neg_half, zero_add]
  split <;> [exact hf; exact hc]

theorem asU8_min_round_eq (q : ℚ) (n : ℤ) (hq : q = (n : ℚ)) (h0 : 0 ≤ n)
    (h255 : n ≤ 255) : asU8 (min ((rustRound q : ℤ) : ℚ) 255) = n.toNat := by
  subst hq
  rw [rustRound_intCast]
  have hle : ((n : ℤ) : ℚ) ≤ 255 := by exact_mod_cast h255
  rw [min_eq_left hle]
  unfold asU8
  rw [qtrunc_intCast, max_eq_left h0]
  apply Nat.min_eq_left
  omega

theorem rustClamp_mem (x lo hi : ℚ) (h : lo ≤ hi) :
    lo ≤ rustClamp x lo hi ∧ rustClamp x lo hi ≤ hi :=
  ⟨le_max_left _ _, max_le h (min_le_right _ _)⟩

theorem rustClamp_eq_self (x lo hi : ℚ) (h0 : lo ≤ x) (h1 : x ≤ hi) :
    rustClamp x lo hi = x := by
  unfold rustClamp
  rw [min_eq_left h1, max_eq_right h0]

/-- Unfolding equation of `Viewport.zoom_by` as a record update. -/
theorem zoom_by_eq (vp : Viewport) (f : ℚ) (p : ℚ × ℚ) :
    vp.zoom_by f p =
      { vp with
        zoom := rustClamp (vp.zoom * f) (1/100) 100,
        pan := p - (rustClamp (vp.zoom * f) (1/100) 100 / vp.zoom) •
          (p - vp.pan),
        fit_mode := FitMode.Custom } := rfl

/-- One inverse zoom pair: `zoom_by f p` followed by `zoom_by (1/f) p`. -/
def zoomPair (vp : Viewport) (f : ℚ) (p : ℚ × ℚ) : Viewport :=
  (vp.zoom_by f p).zoom_by (1 / f) p

/-- Sequential application of inverse zoom pairs. -/
def zoomPairs (vp : Viewport) : List (ℚ × (ℚ × ℚ)) → Viewport
  | [] => vp
  | fp :: rest => zoomPairs (zoomPair vp fp.1 fp.2) rest

/-- When neither call clamps, an inverse zoom pair restores zoom and pan and
only moves the fit-mode to `Custom`. -/
theorem zoomPair_eq (vp : Viewport) (f : ℚ) (p : ℚ × ℚ)
    (hz0 : 1/100 ≤ vp.zoom) (hz1 : vp.zoom ≤ 100)
    (hf0 : 1/100 ≤ vp.zoom * f) (hf1 : vp.zoom * f ≤ 100) :
    zoomPair vp f p = { vp with fit_mode := FitMode.Custom } := by
  have hzpos : 0 < vp.zoom := lt_of_lt_of_le (by norm_num) hz0
  have hfpos : 0 < f := by
    by_contra hf
    push_neg at hf
    have : vp.zoom * f ≤ 0 := mul_nonpos_of_nonneg_of_nonpos hzpos.le hf
    linarith
  have hfne : f ≠ 0 := ne_of_gt hfpos
  have hzne : vp.zoom ≠ 0 := ne_of_gt hzpos
  rw [zoomPair, zoom_by_eq, zoom_by_eq]
  dsimp only
  rw [rustClamp_eq_self _ _ _ hf0 hf1]
  have hz2 : vp.zoom * f * (1/f) = vp.zoom := by field_simp
  rw [hz2, rustClamp_eq_self _ _ _ hz0 hz1]
  have hr1 : vp.zoom * f / vp.zoom = f := by field_simp
  have hr2 : vp.zoom / (vp.zoom * f) = 1/f := by
    rw [eq_div_iff hfne]
    field_simp
  rw [hr1, hr2]
  have hp : p - (1/f) • (p - (p - f • (p - vp.pan))) = vp.pan := by
    rw [sub_sub_cancel, smul_smul, one_div, inv_mul_cancel₀ hfne, one_smul]
    exact sub_sub_cancel _ _
  rw [hp]

/-! ## Claim theorems -/

/-- C1 counterexample: from the default viewport (zoom 1), `zoom_by 1000` then
`zoom_by (1/1000)` at anchor `(0,0)` does not return zoom to its original
value: the first call clamps to 100, the second yields 1/10. -/
theorem zoom_by_inverse_pair_cex :
    ((Viewport.default.zoom_by 1000 (0, 0)).zoom_by (1/1000) (0, 0)).zoom ≠
      Viewport.default.zoom := by
  rw [zoom_by_eq, zoom_by_eq]
  dsimp only
  norm_num [Viewport.default, rustClamp, min_def, max_def]

/-- C1 (amended): whenever the starting zoom lies in `[0.01, 100]` and each
factor `f` keeps `zoom * f` within `[0.01, 100]` (so that no call clamps),
applying `zoom_by f p` then `zoom_by (1/f) p` repeatedly — each pair with its
own factor and anchor — returns both zoom and pan to their starting values
exactly. -/
theorem zoom_by_inverse_pairs_restore (vp : Viewport) (ps : List (ℚ × (ℚ × ℚ)))
    (hz0 : 1/100 ≤ vp.zoom) (hz1 : vp.zoom ≤ 100)
    (hps : ∀ fp ∈ ps, 1/100 ≤ vp.zoom * fp.1 ∧ vp.zoom * fp.1 ≤ 100) :
    (zoomPairs vp ps).zoom = vp.zoom ∧ (zoomPairs vp ps).pan = vp.pan := by
  induction ps generalizing vp with
  | nil => exact ⟨rfl, rfl⟩
  | cons fp tl ih =>
    have h1 := hps fp (List.mem_cons_self _ _)
    simp only [zoomPairs]
    rw [zoomPair_eq vp fp.1 fp.2 hz0 hz1 h1.1 h1.2]
    exact ih _ hz0 hz1 (fun fq hfq => hps fq (List.mem_cons_of_mem _ hfq))

/-- C1 witness: a concrete non-clamping inverse pair from the default
viewport restores zoom and pan. -/
theorem zoom_by_inverse_pairs_restore_witness :
    (zoomPairs Viewport.default [(2, (3, 4))]).zoom = Viewport.default.zoom ∧
    (zoomPairs Viewport.default [(2, (3, 4))]).pan = Viewport.default.pan := by
  apply zoom_by_inverse_pairs_restore
  · norm_num [Viewport.default]
  · norm_num [Viewport.default]
  · intro fp hfp
    rw [List.mem_singleton] at hfp
    subst hfp
    norm_num [Viewport.default]

/-- The viewport operations that never write an unclamped value into `zoom`:
all public mutators except `fit_to_area` and `set_actual_size`. -/
inductive ViewOp where
  | zoomByOp : ℚ → ℚ × ℚ → ViewOp
  | panByOp : ℚ × ℚ → ViewOp
  | rotateCwOp : ViewOp
  | rotateCcwOp : ViewOp
  | toggleMirrorHOp : ViewOp
  | toggleMirrorVOp : ViewOp
  | resetOp : ViewOp

/-- Interpretation of a `ViewOp` on a viewport. -/
def ViewOp.apply (vp : Viewport) : ViewOp → Viewport
  | zoomByOp f p => vp.zoom_by f p
  | panByOp d => vp.pan_by d
  | rotateCwOp => vp.rotate_cw
  | rotateCcwOp => vp.rotate_ccw
  | toggleMirrorHOp => vp.toggle_mirror_h
  | toggleMirrorVOp => vp.toggle_mirror_v
  | resetOp => vp.reset

/-- Left fold of viewport operations. -/
def applyOps (vp : Viewport) (ops : List ViewOp) : Viewport :=
  ops.foldl ViewOp.apply vp

/-- Every restricted operation keeps `zoom` inside `[0.01, 100]`. -/
theorem applyOp_zoom_mem (vp : Viewport) (op : ViewOp)
    (h0 : 1/100 ≤ vp.zoom) (h1 : vp.zoom ≤ 100) :
    1/100 ≤ (ViewOp.apply vp op).zoom ∧ (ViewOp.apply vp op).zoom ≤ 100 := by
  cases op with
  | zoomByOp f p => exact rustClamp_mem _ _ _ (by norm_num)
  | panByOp d => exact ⟨h0, h1⟩
  | rotateCwOp => exact ⟨h0, h1⟩
  | rotateCcwOp => exact ⟨h0, h1⟩
  | toggleMirrorHOp => exact ⟨h0, h1⟩
  | toggleMirrorVOp => exact ⟨h0, h1⟩
  | resetOp =>
    constructor <;> norm_num [ViewOp.apply, Viewport.reset, Viewport.default]

/-- C2 counterexample: from the default viewport, the public operations
`fit_to_area 1 1 1000 1000` and `set_actual_size (1/1000)` each set zoom to
1000, outside `[0.01, 100]` — neither operation clamps. -/
theorem zoom_range_invariant_cex :
    100 < (Viewport.default.fit_to_area 1 1 1000 1000).zoom ∧
    100 < (Viewport.default.set_actual_size (1/1000)).zoom := by
  constructor
  · unfold Viewport.fit_to_area
    rw [if_neg (by norm_num)]
    dsimp only
    norm_num [Viewport.default, rustRem, qtrunc, min_def]
  · norm_num [Viewport.set_actual_size]

/-- C2 (amended): starting from the default viewport (zoom 1), any sequence of
the public operations other than `fit_to_area` and `set_actual_size` — that
is, `zoom_by`, `pan_by`, `rotate_cw`, `rotate_ccw`, `toggle_mirror_h`,
`toggle_mirror_v` and `reset` with arbitrary arguments — leaves zoom within
`[0.01, 100]`; `fit_to_area` and `set_actual_size` write zoom directly from
their arguments without clamping. -/
theorem zoom_range_invariant_amended (ops : List ViewOp) :
    1/100 ≤ (applyOps Viewport.default ops).zoom ∧
    (applyOps Viewport.default ops).zoom ≤ 100 := by
  suffices h : ∀ (vp : Viewport), 1/100 ≤ vp.zoom → vp.zoom ≤ 100 →
      1/100 ≤ (applyOps vp ops).zoom ∧ (applyOps vp ops).zoom ≤ 100 by
    exact h _ (by norm_num [Viewport.default]) (by norm_num [Viewport.default])
  induction ops with
  | nil => exact fun vp h0 h1 => ⟨h0, h1⟩
  | cons op tl ih =>
    intro vp h0 h1
    have hop := applyOp_zoom_mem vp op h0 h1
    exact ih _ hop.1 hop.2

/-- C3: for every viewport state, factor and anchor, `zoom_by` sets
`new_zoom = clamp(old_zoom * factor, 0.01, 100)` — hence the resulting zoom
always lies in `[0.01, 100]` — adjusts pan by the zoom-to-cursor rule
`pan' = anchor - (new_zoom/old_zoom) * (anchor - pan)`, sets fit-mode to
`Custom`, and leaves every other field unchanged. -/
theorem zoom_by_spec (vp : Viewport) (factor : ℚ) (anchor : ℚ × ℚ) :
    vp.zoom_by factor anchor =
      { vp with
        zoom := rustClamp (vp.zoom * factor) (1/100) 100,
        pan := anchor -
          (rustClamp (vp.zoom * factor) (1/100) 100 / vp.zoom) •
            (anchor - vp.pan),
        fit_mode := FitMode.Custom } ∧
    1/100 ≤ (vp.zoom_by factor anchor).zoom ∧
    (vp.zoom_by factor anchor).zoom ≤ 100 := by
  refine ⟨rfl, ?_, ?_⟩
  · exact (rustClamp_mem _ _ _ (by norm_num)).1
  · exact (rustClamp_mem _ _ _ (by norm_num)).2

/-- C4: `fit_to_area` is a no-op when any argument is nonpositive; otherwise it
swaps the effective document dimensions exactly when `|rotation mod 180| > 45`,
sets zoom to `min(area_w/eff_w, area_h/eff_h)`, resets pan to zero and sets
fit-mode to `Fit`; from rotation 0, `fit_to_area 200 100 400 400` yields zoom 2
and `fit_to_area 200 100 100 200` yields zoom 1/2. -/
theorem fit_to_area_spec :
    (∀ (vp : Viewport) (w h aw ah : ℚ), (w ≤ 0 ∨ h ≤ 0 ∨ aw ≤ 0 ∨ ah ≤ 0) →
        vp.fit_to_area w h aw ah = vp) ∧
    (∀ (vp : Viewport) (w h aw ah : ℚ), 0 < w → 0 < h → 0 < aw → 0 < ah →
        vp.fit_to_area w h aw ah =
          { vp with
            zoom := if |rustRem vp.rotation_deg 180| > 45
                    then min (aw / h) (ah / w)
                    else min (aw / w) (ah / h),
            pan := (0, 0),
            fit_mode := FitMode.Fit }) ∧
    (Viewport.default.fit_to_area 200 100 400 400).zoom = 2 ∧
    (Viewport.default.fit_to_area 200 100 100 200).zoom = 1/2 := by
  have h1 : ∀ (vp : Viewport) (w h aw ah : ℚ),
      (w ≤ 0 ∨ h ≤ 0 ∨ aw ≤ 0 ∨ ah ≤ 0) → vp.fit_to_area w h aw ah = vp := by
    intro vp w h aw ah hnp
    unfold Viewport.fit_to_area
    rw [if_pos hnp]
  have h2 : ∀ (vp : Viewport) (w h aw ah : ℚ), 0 < w → 0 < h → 0 < aw → 0 < ah →
      vp.fit_to_area w h aw ah =
        { vp with
          zoom := if |rustRem vp.rotation_deg 180| > 45
                  then min (aw / h) (ah / w)
                  else min (aw / w) (ah / h),
          pan := (0, 0),
          fit_mode := FitMode.Fit } := by
    intro vp w h aw ah hw hh haw hah
    unfold Viewport.fit_to_area
    rw [if_neg (by push_neg; exact ⟨hw, hh, haw, hah⟩)]
    by_cases hr : |rustRem vp.rotation_deg 180| > 45 <;> simp only [hr] <;> simp
  have hrot : |rustRem Viewport.default.rotation_deg 180| > 45 ↔ False := by
    simp only [Viewport.default]
    norm_num [rustRem, qtrunc]
  refine ⟨h1, h2, ?_, ?_⟩
  · rw [h2 _ _ _ _ _ (by norm_num) (by norm_num) (by norm_num) (by norm_num)]
    simp only [hrot.eq, if_false]
    norm_num [min_def]
  · rw [h2 _ _ _ _ _ (by norm_num) (by norm_num) (by norm_num) (by norm_num)]
    simp only [hrot.eq, if_false]
    norm_num [min_def]

/-- C4 witness: a zero document width leaves the default viewport unchanged,
and positive arguments produce the fit state at concrete inputs. -/
theorem fit_to_area_spec_witness :
    Viewport.default.fit_to_area 0 100 400 400 = Viewport.default ∧
    Viewport.default.fit_to_area 200 100 400 400 =
      { Viewport.default with
        zoom := if |rustRem Viewport.default.rotation_deg 180| > 45
                then min (400 / 100) (400 / 200)
                else min (400 / 200) (400 / 100),
        pan := (0, 0), fit_mode := FitMode.Fit } :=
  ⟨fit_to_area_spec.1 Viewport.default 0 100 400 400 (Or.inl (by norm_num)),
   fit_to_area_spec.2.1 Viewport.default 200 100 400 400 (by norm_num)
     (by norm_num) (by norm_num) (by norm_num)⟩

/-- C6: `pan_by` adds the delta to pan, moves fit-mode from `Fit` to `Custom`
while leaving `ActualSize`/`Custom` unchanged, changes no other field, and a
second pan never changes the fit-mode again (the transition happens at most
once, on the first pan). -/
theorem pan_by_spec :
    (∀ (vp : Viewport) (delta : ℚ × ℚ),
        vp.pan_by delta =
          { vp with pan := vp.pan + delta,
                    fit_mode := if vp.fit_mode = FitMode.Fit then FitMode.Custom
                                else vp.fit_mode }) ∧
    (∀ (vp : Viewport) (d1 d2 : ℚ × ℚ),
        ((vp.pan_by d1).pan_by d2).fit_mode = (vp.pan_by d1).fit_mode) := by
  refine ⟨fun vp delta => rfl, fun vp d1 d2 => ?_⟩
  simp only [Viewport.pan_by]
  cases hm : vp.fit_mode <;> simp

/-- C7: `un_premultiply_alpha` maps each RGBA pixel by dividing each colour
channel by `alpha/255`, rounding, clamping to 255 and preserving the alpha
byte when alpha is positive, and produces exactly `[0,0,0,0]` when alpha is
zero; in particular `[128,0,0,128]` maps to `[255,0,0,128]` (exactly, in
rational arithmetic) and `[0,0,0,0]` maps to `[0,0,0,0]`. -/
theorem un_premultiply_alpha_spec :
    (∀ (r g b a : ℕ) (rest : List ℕ),
        unPremultiplyAlpha (r :: g :: b :: a :: rest) =
          (if 0 < a then
            [asU8 (min ((rustRound ((r : ℚ) / ((a : ℚ) / 255)) : ℤ) : ℚ) 255),
             asU8 (min ((rustRound ((g : ℚ) / ((a : ℚ) / 255)) : ℤ) : ℚ) 255),
             asU8 (min ((rustRound ((b : ℚ) / ((a : ℚ) / 255)) : ℤ) : ℚ) 255),
             a]
           else [0, 0, 0, 0]) ++ unPremultiplyAlpha rest) ∧
    unPremultiplyAlpha [128, 0, 0, 128] = [255, 0, 0, 128] ∧
    unPremultiplyAlpha [0, 0, 0, 0] = [0, 0, 0, 0] := by
  refine ⟨?_, ?_, ?_⟩
  · intro r g b a rest
    by_cases ha : 0 < a
    · have haq : 0 < (a : ℚ) / 255 :=
        div_pos (by exact_mod_cast ha) (by norm_num)
      simp only [unPremultiplyAlpha]
      rw [if_pos haq, if_pos ha]
    · have ha0 : a = 0 := Nat.eq_zero_of_not_pos ha
      subst ha0
      simp only [unPremultiplyAlpha]
      norm_num
  · simp only [unPremultiplyAlpha]
    rw [if_pos (by norm_num)]
    have e1 := asU8_min_round_eq (((128 : ℕ) : ℚ) / (((128 : ℕ) : ℚ) / 255)) 255
      (by push_cast; norm_num) (by norm_num) (by norm_num)
    have e2 := asU8_min_round_eq (((0 : ℕ) : ℚ) / (((128 : ℕ) : ℚ) / 255)) 0
      (by push_cast; norm_num) (by norm_num) (by norm_num)
    simp only [e1, e2]
    rfl
  · simp only [unPremultiplyAlpha]
    rw [if_neg (by norm_num)]
    rfl

/-- C8: `composite_over_background` maps each premultiplied RGBA pixel to RGB
with `out = round(premul + bg * (1 - alpha/255))` clamped to 255, dropping the
alpha channel; over a white background, opaque `[255,0,0,255]` yields
`[255,0,0]` and transparent `[0,0,0,0]` yields `[255,255,255]`. -/
theorem composite_over_background_spec :
    (∀ (r g b a : ℕ) (rest : List ℕ) (bg : ℕ × ℕ × ℕ),
        compositeOverBackground (r :: g :: b :: a :: rest) bg =
          asU8 (min ((rustRound
            ((r : ℚ) + (bg.1 : ℚ) * (1 - (a : ℚ) / 255)) : ℤ) : ℚ) 255) ::
          asU8 (min ((rustRound
            ((g : ℚ) + (bg.2.1 : ℚ) * (1 - (a : ℚ) / 255)) : ℤ) : ℚ) 255) ::
          asU8 (min ((rustRound
            ((b : ℚ) + (bg.2.2 : ℚ) * (1 - (a : ℚ) / 255)) : ℤ) : ℚ) 255) ::
          compositeOverBackground rest bg) ∧
    compositeOverBackground [255, 0, 0, 255] (255, 255, 255) = [255, 0, 0] ∧
    compositeOverBackground [0, 0, 0, 0] (255, 255, 255) = [255, 255, 255] := by
  refine ⟨fun r g b a rest bg => rfl, ?_, ?_⟩
  · simp only [compositeOverBackground]
    have e1 := asU8_min_round_eq
      (((255 : ℕ) : ℚ) + ((255 : ℕ) : ℚ) * (1 - ((255 : ℕ) : ℚ) / 255)) 255
      (by push_cast; norm_num) (by norm_num) (by norm_num)
    have e2 := asU8_min_round_eq
      (((0 : ℕ) : ℚ) + ((255 : ℕ) : ℚ) * (1 - ((255 : ℕ) : ℚ) / 255)) 0
      (by push_cast; norm_num) (by norm_num) (by norm_num)
    simp only [e1, e2]
    rfl
  · simp only [compositeOverBackground]
    have e3 := asU8_min_round_eq
      (((0 : ℕ) : ℚ) + ((255 : ℕ) : ℚ) * (1 - ((0 : ℕ) : ℚ) / 255)) 255
      (by push_cast; norm_num) (by norm_num) (by norm_num)
    simp only [e3]
    rfl

/-- C5: the export render is independent of pan, zoom and fit-mode: for any
two viewports agreeing on rotation and the two mirror flags,
`build_transform` produces the same transform for all dimensions and
`render_for_export` produces the same render call (tree, dimensions and
transform) — hence the same pixel output. -/
theorem render_for_export_ignores_pan_zoom {Tree : Type} (doc : SvgDocument Tree)
    (w h : ℕ) (vp1 vp2 : Viewport)
    (hrot : vp1.rotation_deg = vp2.rotation_deg)
    (hmh : vp1.mirror_h = vp2.mirror_h)
    (hmv : vp1.mirror_v = vp2.mirror_v) :
    (∀ (dw dh tw th : ℝ),
        vp1.build_transform dw dh tw th = vp2.build_transform dw dh tw th) ∧
    renderForExport doc w h vp1 = renderForExport doc w h vp2 := by
  have ht : ∀ (dw dh tw th : ℝ),
      vp1.build_transform dw dh tw th = vp2.build_transform dw dh tw th := by
    intro dw dh tw th
    simp only [Viewport.build_transform, hrot, hmh, hmv]
  refine ⟨ht, ?_⟩
  simp only [renderForExport, ht]

/-- Concrete viewport differing from `vpExportB` only in pan, zoom and
fit-mode. -/
def vpExportA : Viewport :=
  { zoom := 1, pan := (0, 0), rotation_deg := 90,
    mirror_h := true, mirror_v := false, fit_mode := FitMode.Fit }

/-- Concrete viewport differing from `vpExportA` only in pan, zoom and
fit-mode. -/
def vpExportB : Viewport :=
  { zoom := 7, pan := (3, 4), rotation_deg := 90,
    mirror_h := true, mirror_v := false, fit_mode := FitMode.Custom }

/-- C5 witness: two concrete viewports with equal rotation/mirror but
different pan, zoom and fit-mode export identically. -/
theorem render_for_export_ignores_pan_zoom_witness :
    (∀ (dw dh tw th : ℝ),
        vpExportA.build_transform dw dh tw th =
          vpExportB.build_transform dw dh tw th) ∧
    renderForExport (⟨(), 200, 100⟩ : SvgDocument Unit) 800 600 vpExportA =
      renderForExport (⟨(), 200, 100⟩ : SvgDocument Unit) 800 600 vpExportB :=
  render_for_export_ignores_pan_zoom ⟨(), 200, 100⟩ 800 600 vpExportA vpExportB
    rfl rfl rfl

/-- `pixmapNew` always succeeds on dimensions clamped to `[1, MAX_RENDER_DIM]`. -/
theorem pixmapNew_clamped (x y : ℕ) :
    pixmapNew (min (max x 1) MAX_RENDER_DIM) (min (max y 1) MAX_RENDER_DIM) =
      some (min (max x 1) MAX_RENDER_DIM, min (max y 1) MAX_RENDER_DIM) := by
  unfold pixmapNew
  rw [if_neg]
  push_neg
  have h1 : 1 ≤ min (max x 1) MAX_RENDER_DIM :=
    le_min (le_max_right _ _) (by norm_num [MAX_RENDER_DIM])
  have h2 : 1 ≤ min (max y 1) MAX_RENDER_DIM :=
    le_min (le_max_right _ _) (by norm_num [MAX_RENDER_DIM])
  omega

/-- C10: the interactive render returns a `Render` error whenever the
document's intrinsic width or height is nonpositive, and otherwise succeeds
(in this model pixel-buffer allocation on clamped dimensions cannot fail) with
both pixmap dimensions clamped to `[1, 4096]`. -/
theorem render_to_pixmap_spec {Tree : Type} (doc : SvgDocument Tree)
    (vp : Viewport) (aw ah ppp : ℚ) :
    ((doc.width ≤ 0 ∨ doc.height ≤ 0) →
       renderToPixmap doc vp aw ah ppp =
         Except.error (SvgError.render "SVG has zero dimensions")) ∧
    (0 < doc.width → 0 < doc.height →
       ∃ rc : RenderCall Tree, renderToPixmap doc vp aw ah ppp = Except.ok rc ∧
         1 ≤ rc.width ∧ rc.width ≤ 4096 ∧ 1 ≤ rc.height ∧ rc.height ≤ 4096) := by
  constructor
  · intro hbad
    simp only [renderToPixmap]
    rw [if_pos hbad]
  · intro hw hh
    simp only [renderToPixmap]
    rw [if_neg (by push_neg; exact ⟨hw, hh⟩)]
    rw [pixmapNew_clamped]
    refine ⟨_, rfl, ?_, ?_, ?_, ?_⟩
    · exact le_min (le_max_right _ _) (by norm_num [MAX_RENDER_DIM])
    · exact min_le_right _ _
    · exact le_min (le_max_right _ _) (by norm_num [MAX_RENDER_DIM])
    · exact min_le_right _ _

/-- C10 witness: a document with negative width yields the `Render` error, and
a 200×100 document renders successfully with both dimensions in `[1, 4096]`. -/
theorem render_to_pixmap_spec_witness :
    renderToPixmap (⟨(), -1, 50⟩ : SvgDocument Unit) Viewport.default 800 600 1 =
      Except.error (SvgError.render "SVG has zero dimensions") ∧
    ∃ rc : RenderCall Unit,
      renderToPixmap (⟨(), 200, 100⟩ : SvgDocument Unit) Viewport.default 800 600 1 =
        Except.ok rc ∧
      1 ≤ rc.width ∧ rc.width ≤ 4096 ∧ 1 ≤ rc.height ∧ rc.height ≤ 4096 :=
  ⟨(render_to_pixmap_spec ⟨(), -1, 50⟩ Viewport.default 800 600 1).1
      (Or.inl (by norm_num)),
   (render_to_pixmap_spec ⟨(), 200, 100⟩ Viewport.default 800 600 1).2
      (by norm_num) (by norm_num)⟩

/-- C9: on an empty file list `next`/`prev` return nothing and leave the
navigator unchanged; on a non-empty list with an in-bounds current index they
move the index cyclically — `next` maps `n-1` to `0` and otherwise
increments, `prev` maps `0` to `n-1` and otherwise decrements — and return
`some` of the path at the new index. -/
theorem navigator_next_prev_spec (nav : FileNavigator) :
    (nav.files = [] → nav.next = (none, nav) ∧ nav.prev = (none, nav)) ∧
    (nav.files ≠ [] → nav.current_index < nav.files.length →
      nav.next = (nav.files.get? ((nav.current_index + 1) % nav.files.length),
                  ⟨nav.files, (nav.current_index + 1) % nav.files.length⟩) ∧
      nav.prev = (nav.files.get?
                    (if nav.current_index = 0 then nav.files.length - 1
                     else nav.current_index - 1),
                  ⟨nav.files,
                   if nav.current_index = 0 then nav.files.length - 1
                   else nav.current_index - 1⟩) ∧
      ((nav.next).1).isSome = true ∧ ((nav.prev).1).isSome = true ∧
      (nav.current_index = nav.files.length - 1 →
        (nav.next).2.current_index = 0) ∧
      (nav.current_index + 1 < nav.files.length →
        (nav.next).2.current_index = nav.current_index + 1) ∧
      (nav.current_index = 0 →
        (nav.prev).2.current_index = nav.files.length - 1) ∧
      (0 < nav.current_index →
        (nav.prev).2.current_index = nav.current_index - 1)) := by
  constructor
  · intro he
    have hemp : nav.files.isEmpty = true := by simp [he]
    constructor <;>
      · simp only [FileNavigator.next, FileNavigator.prev, hemp, if_pos]
  · intro hne hi
    have hemp : nav.files.isEmpty = false := by
      simp [List.isEmpty_iff, hne]
    have hn0 : 0 < nav.files.length := List.length_pos.mpr hne
    have hj1 : (nav.current_index + 1) % nav.files.length < nav.files.length :=
      Nat.mod_lt _ hn0
    have hj2 : (if nav.current_index = 0 then nav.files.length - 1
                else nav.current_index - 1) < nav.files.length := by
      split <;> omega
    have hnext : nav.next =
        (nav.files.get? ((nav.current_index + 1) % nav.files.length),
         ⟨nav.files, (nav.current_index + 1) % nav.files.length⟩) := by
      simp only [FileNavigator.next, hemp, Bool.false_eq_true, if_false]
    have hprev : nav.prev =
        (nav.files.get?
           (if nav.current_index = 0 then nav.files.length - 1
            else nav.current_index - 1),
         ⟨nav.files,
          if nav.current_index = 0 then nav.files.length - 1
          else nav.current_index - 1⟩) := by
      simp only [FileNavigator.prev, hemp, Bool.false_eq_true, if_false]
    refine ⟨hnext, hprev, ?_, ?_, ?_, ?_, ?_, ?_⟩
    · rw [hnext, List.get?_eq_get hj1]
      rfl
    · rw [hprev, List.get?_eq_get hj2]
      rfl
    · intro hlast
      rw [hnext]
      dsimp only
      rw [hlast, Nat.sub_add_cancel hn0, Nat.mod_self]
    · intro hmid
      rw [hnext]
      dsimp only
      exact Nat.mod_eq_of_lt hmid
    · intro h0
      rw [hprev]
      dsimp only
      rw [if_pos h0]
    · intro hp
      rw [hprev]
      dsimp only
      rw [if_neg (by omega)]

/-- C9 witness: on the empty navigator `next`/`prev` return nothing, and on
a three-element list `next` wraps index 2 to 0 returning the first path while
`prev` decrements to index 1 returning the middle path. -/
theorem navigator_next_prev_spec_witness :
    FileNavigator.next ⟨([] : List String), 0⟩ = (none, ⟨[], 0⟩) ∧
    FileNavigator.prev ⟨([] : List String), 0⟩ = (none, ⟨[], 0⟩) ∧
    FileNavigator.next ⟨["a", "b", "c"], 2⟩ = (some "a", ⟨["a", "b", "c"], 0⟩) ∧
    FileNavigator.prev ⟨["a", "b", "c"], 2⟩ = (some "b", ⟨["a", "b", "c"], 1⟩) := by
  have h0 := (navigator_next_prev_spec ⟨([] : List String), 0⟩).1 rfl
  have h := (navigator_next_prev_spec ⟨["a", "b", "c"], 2⟩).2 (by simp)
    (by norm_num)
  refine ⟨h0.1, h0.2, ?_, ?_⟩
  · rw [h.1]
    rfl
  · rw [h.2.1]
    rfl

end SvgViewer
